import Mathlib

/-!
Verification development for the calcium-converter program
(`calcium_converter.py`).  The definitions below are a shallow embedding
of the Python source: spreadsheet cell values become a sum type, machine
floats become exact rationals (the sample standard deviation, which
takes a square root, lands in `ℝ`), and code paths that raise Python
exceptions return `Except`/`Option` values carrying the exception text.
-/

/-- One sample, class `TimeValuePair` from the source: a time in seconds
and a (converted) value. -/
structure TimeValuePair where
  time : ℚ
  value : ℚ
deriving DecidableEq

/-- The class `TreatmentData` from the source.  `prior_wash_data` is an
`Option` because the source assigns Python `None` to it when no prior
standard-bath segment is found in the region segment list. -/
structure TreatmentData where
  treatment_name : String
  prior_wash_data : Option (List TimeValuePair)
  treatment_data : List TimeValuePair
  anterior_wash_data : List TimeValuePair
deriving DecidableEq

/-- A region segment: either a `StandardBathData` or a `TreatmentData`
(the two element kinds of the per-region list in `get_raw_data`). -/
inductive Segment where
  | std (std_bath_data : List TimeValuePair)
  | treat (td : TreatmentData)
deriving DecidableEq

/-- The class `LabelIndexPair` from the source: a treatment-label cell
text and its 1-based row. -/
structure LabelIndexPair where
  label : String
  index : ℕ
deriving DecidableEq

/-- An element of the `treatment_labels` list at run time.  The source
inserts the raw tuple `("STD", start_of_data_row)` (not a
`LabelIndexPair`) at position 0, so the list is heterogeneous. -/
inductive LabelEntry where
  | pair (p : LabelIndexPair)
  | tup (label : String) (index : ℕ)
deriving DecidableEq

/-- A spreadsheet cell as seen through `openpyxl`: empty (`None`),
numeric, or text. -/
inductive CellValue where
  | empty
  | num (q : ℚ)
  | text (s : String)
deriving DecidableEq

/-- The input grid restricted to one region column: `ratioCell r` models
`insheet.cell(r, region).value` and `timeCell r` models
`insheet.cell(r, time_column_idx).value`; `maxRow` is `insheet.max_row`. -/
structure Sheet where
  maxRow : ℕ
  ratioCell : ℕ → CellValue
  timeCell : ℕ → CellValue

/-- The function `is_valid_treatment` from the source. -/
def is_valid_treatment (potential_treatment : String) : Bool :=
  potential_treatment != "Standard Bath" && potential_treatment != "STD"

/-- The function `ratio_to_calcium_concentration` from the source, over
exact rationals; `none` models Python `None` in and out.  (At ratio
`6.274` Python would raise `ZeroDivisionError`; rational division by
zero yields `0`, a point no claim exercises.) -/
def ratio_to_calcium_concentration : Option ℚ → Option ℚ
  | none => none
  | some r => some (146 * (25813.79 / 1674.68) * ((r - 0.132) / (6.274 - r)))

/-- The conversion applied to a raw ratio cell, as `append_values` does:
an empty cell passes through (`None` in, `None` out), a numeric cell is
converted by the formula of `ratio_to_calcium_concentration`, and a text
cell raises `TypeError` inside the conversion (`str` minus `float`). -/
def convertCell : CellValue → Except String CellValue
  | .empty => .ok .empty
  | .num r => .ok (.num (146 * (25813.79 / 1674.68) * ((r - 0.132) / (6.274 - r))))
  | .text _ => .error "TypeError: unsupported operand types for str and float"

/-- The loop body of `append_values` for `count` rows starting at row
`start`: convert the ratio cell, read the time cell, and append either a
real sample or, after printing a diagnostic, the `(0, 0)` placeholder. -/
def appendRows (sheet : Sheet) : ℕ → ℕ → Except String (List TimeValuePair)
  | _, 0 => .ok []
  | start, count + 1 =>
    match convertCell (sheet.ratioCell start) with
    | .error e => .error e
    | .ok rv =>
      let sample : TimeValuePair :=
        match rv, sheet.timeCell start with
        | .num r, .num t => { time := t, value := r }
        | _, _ => { time := 0, value := 0 }
      match appendRows sheet (start + 1) count with
      | .error e => .error e
      | .ok rest => .ok (sample :: rest)

/-- The function `append_values(list, start, end)` from the source:
collects rows `start, …, end - 1` (an empty range when `end ≤ start`). -/
def append_values (sheet : Sheet) (start endIdx : ℕ) : Except String (List TimeValuePair) :=
  appendRows sheet start (endIdx - start)

/-- Attribute access `.label` on a `treatment_labels` element: the tuple
the source inserts at position 0 has no `label` attribute. -/
def entryLabel : LabelEntry → Except String String
  | .pair p => .ok p.label
  | .tup _ _ => .error "AttributeError: tuple object has no attribute label"

/-- Attribute access `.index` on a `treatment_labels` element.  On the
tuple, Python returns the built-in `tuple.index` method; every use of it
as a row number then raises `TypeError`, modelled here at the access. -/
def entryIndex : LabelEntry → Except String ℕ
  | .pair p => .ok p.index
  | .tup _ _ => .error "TypeError: tuple.index method used as a row number"

/-- The scan in `get_raw_data` that keeps the last `StandardBathData`
already appended to the region segment list (`prior_std_data`). -/
def lastSTD (segments : List Segment) : Option (List TimeValuePair) :=
  segments.foldl (fun acc s =>
    match s with
    | .std d => some d
    | .treat _ => acc) none

/-- One iteration of the label loop in `get_raw_data`, building the
segment for label `e`; `rest` is the remainder of the label list (for
the `j + 1` and `j + 2` look-aheads), `acc` the region segment list so
far.  Mirrors the source order: end-of-range lookup, label test, sample
collection, the `assert j > 0`, the prior-bath scan, and the
anterior-wash window starting at `treatment_end_idx + 1`. -/
def buildSeg (sheet : Sheet) (e : LabelEntry) (rest : List LabelEntry) (j : ℕ)
    (acc : List Segment) : Except String Segment :=
  match (match rest.head? with
         | some e1 => entryIndex e1
         | none => .ok (sheet.maxRow + 1) : Except String ℕ) with
  | .error err => .error err
  | .ok treatment_end_idx =>
    match entryLabel e with
    | .error err => .error err
    | .ok lbl =>
      if is_valid_treatment lbl then
        match entryIndex e with
        | .error err => .error err
        | .ok start_idx =>
          match append_values sheet start_idx treatment_end_idx with
          | .error err => .error err
          | .ok tr =>
            if j = 0 then
              .error "AssertionError: STD must be first treatment"
            else
              match rest.head? with
              | none => .error "IndexError: list index out of range"
              | some e1 =>
                match entryLabel e1 with
                | .error err => .error err
                | .ok lbl1 =>
                  if is_valid_treatment lbl1 then
                    .ok (.treat { treatment_name := lbl, prior_wash_data := lastSTD acc,
                                  treatment_data := tr, anterior_wash_data := [] })
                  else
                    match (match rest.tail.head? with
                           | some e2 => entryIndex e2
                           | none => .ok (sheet.maxRow + 1) : Except String ℕ) with
                    | .error err => .error err
                    | .ok anterior_end =>
                      match append_values sheet (treatment_end_idx + 1) anterior_end with
                      | .error err => .error err
                      | .ok ant =>
                        .ok (.treat { treatment_name := lbl, prior_wash_data := lastSTD acc,
                                      treatment_data := tr, anterior_wash_data := ant })
      else
        match entryIndex e with
        | .error err => .error err
        | .ok start_idx =>
          match append_values sheet start_idx treatment_end_idx with
          | .error err => .error err
          | .ok d => .ok (.std d)

/-- The per-label loop of `get_raw_data` for one region: builds one
segment per label, in order, threading the region segment list. -/
def segmentLoop (sheet : Sheet) : List LabelEntry → ℕ → List Segment →
    Except String (List Segment)
  | [], _, acc => .ok acc
  | e :: rest, j, acc =>
    match buildSeg sheet e rest j acc with
    | .error err => .error err
    | .ok seg => segmentLoop sheet rest (j + 1) (acc ++ [seg])

/-- Start-of-data row, `SheetParseValues.START_DATA_ROW` in the source. -/
def START_DATA_ROW : ℕ := 2

/-- One region iteration of `get_raw_data`: the tuple insertion for data
rows before the first label, followed by the per-label segment loop.
(The outer region loop of the source repeats this per region column; the
first region already exhibits every behaviour the claims mention.) -/
def get_raw_data_region (sheet : Sheet) (labels : List LabelIndexPair) :
    Except String (List Segment) :=
  match labels with
  | [] => .error "IndexError: list index out of range"
  | l0 :: _ =>
    let entries := if START_DATA_ROW < l0.index then
        LabelEntry.tup "STD" START_DATA_ROW :: labels.map LabelEntry.pair
      else labels.map LabelEntry.pair
    segmentLoop sheet entries 0 []

/-- A dynamically-typed value returned by `calculate_peak`: peak mode 2
with a single candidate returns the bare `TimeValuePair` object itself
as the second component. -/
inductive PyVal where
  | num (q : ℚ)
  | tvp (p : TimeValuePair)
deriving DecidableEq

/-- The counting loop at the top of `calculate_peak`: `i` advances over
`anterior_wash_data` and stops just after the first sample past the
search window, so that sample is still counted. -/
def scanCount (cutoff : ℚ) : List TimeValuePair → ℕ
  | [] => 0
  | v :: rest => if cutoff < v.time then 1 else 1 + scanCount cutoff rest

/-- The list `data_to_search` in `calculate_peak`: all treatment samples
plus the first `i` anterior-wash samples. -/
def searchPool (td : TreatmentData) (post_std_time_to_search : ℚ) : List TimeValuePair :=
  match td.treatment_data.getLast? with
  | none => []
  | some lastT =>
    let i := scanCount (lastT.time + post_std_time_to_search) td.anterior_wash_data
    td.treatment_data ++ td.anterior_wash_data.take (min td.anterior_wash_data.length i)

/-- The sort order of `calculate_peak`: descending by `value`, matching
Python `sorted(..., reverse=True, key=lambda x: x.value)` (stable). -/
def valueGE (a b : TimeValuePair) : Prop := b.value ≤ a.value

instance : DecidableRel valueGE :=
  fun a b => inferInstanceAs (Decidable (b.value ≤ a.value))

instance : IsTotal TimeValuePair valueGE := ⟨fun a b => le_total b.value a.value⟩

instance : IsTrans TimeValuePair valueGE := ⟨fun _ _ _ hab hbc => le_trans hbc hab⟩

/-- The function `calculate_peak` from the source.  Failure modes
preserved: an empty `treatment_data` raises `IndexError`
(`treatment_data[-1]`); peak mode 2 with two or more candidates raises
`TypeError` when `max` compares two bare `TimeValuePair` objects, and
with a single candidate returns that object (not its time) as the
second component. -/
def calculate_peak (td : TreatmentData) (peak_type : ℤ) (post_std_time_to_search : ℚ) :
    Except String (PyVal × PyVal) :=
  match td.treatment_data.getLast? with
  | none => .error "IndexError: list index out of range"
  | some _ =>
    match List.insertionSort valueGE (searchPool td post_std_time_to_search) with
    | [] => .error "IndexError: list index out of range"
    | top :: rest =>
      if peak_type = 1 then .ok (.num top.value, .num top.time)
      else
        match rest with
        | [] => .ok (.num top.value, .tvp top)
        | _ :: _ =>
          .error "TypeError: comparison not supported between instances of TimeValuePair"

/-- Python list slicing `l[-b:]` for an arbitrary integer `b`; note that
`l[-0:]` is the whole list. -/
def pySliceLast (l : List TimeValuePair) (b : ℤ) : List TimeValuePair :=
  if 1 ≤ b then l.drop (l.length - b.toNat)
  else if b = 0 then l
  else l.drop (-b).toNat

/-- Exact `statistics.mean` (raises `StatisticsError` on an empty list). -/
def meanQ (l : List ℚ) : Option ℚ :=
  if l.length = 0 then none else some (l.sum / l.length)

/-- The sample variance with Bessel correction, the square of
`statistics.stdev`. -/
def sampleVarQ (l : List ℚ) : ℚ :=
  (l.map (fun x => (x - l.sum / l.length) ^ 2)).sum / ((l.length : ℚ) - 1)

/-- Exact `statistics.stdev` (raises for fewer than two points). -/
noncomputable def stdevQ (l : List ℚ) : Option ℝ :=
  if l.length < 2 then none else some (Real.sqrt (sampleVarQ l))

/-- The function `calculate_base` from the source: slice the last `base`
prior-wash samples, then mean and sample standard deviation.  `none`
collects the fatal paths (`prior_wash_data` is Python `None`, or
`statistics` raises). -/
noncomputable def calculate_base (td : TreatmentData) (base : ℤ) : Option (ℚ × ℝ) :=
  match td.prior_wash_data with
  | none => none
  | some pw =>
    let base_values := (pySliceLast pw base).map (fun x => x.value)
    match meanQ base_values, stdevQ base_values with
    | some m, some s => some (m, s)
    | _, _ => none

/-- The loop of `calculate_area`: accumulator `auc`, the `previous_time`
state, and the consecutive-below-threshold counter with its early
`break` at 15. -/
def areaLoop (base base_std base_peak_time : ℚ) :
    List TimeValuePair → Option ℚ → ℕ → ℚ → ℚ
  | [], _, _, auc => auc
  | v :: rest, previous_time, consec, auc =>
    let dt : ℚ := match previous_time with
      | none => 6
      | some p => v.time - p
    if base + base_std < v.value then
      areaLoop base base_std base_peak_time rest (some v.time) consec
        (auc + (v.value - base) * dt)
    else if base_peak_time < v.time then
      if 15 ≤ consec + 1 then auc
      else areaLoop base base_std base_peak_time rest (some v.time) (consec + 1) auc
    else
      areaLoop base base_std base_peak_time rest (some v.time) consec auc

/-- The function `calculate_area` from the source. -/
def calculate_area (td : TreatmentData) (base base_std base_peak_time : ℚ) : ℚ :=
  areaLoop base base_std base_peak_time
    (td.treatment_data ++ td.anterior_wash_data) none 0 0

/-- The per-sample time deltas as claim C1 words them: 6 for the first
sample, current minus previous time for each later sample. -/
def claimDts : List TimeValuePair → List ℚ
  | [] => []
  | x :: xs => 6 :: List.zipWith (fun p c => c.time - p.time) (x :: xs) xs

/-- The area computation as claim C1 words it, over samples paired with
their deltas: add `(value - base) * dt` above threshold, otherwise past
the peak time bump the never-reset counter and stop at 15. -/
def claimAreaGo (base base_std base_peak_time : ℚ) :
    List (TimeValuePair × ℚ) → ℕ → ℚ
  | [], _ => 0
  | (v, dt) :: rest, consec =>
    if base + base_std < v.value then
      (v.value - base) * dt + claimAreaGo base base_std base_peak_time rest consec
    else if base_peak_time < v.time then
      if 15 ≤ consec + 1 then 0
      else claimAreaGo base base_std base_peak_time rest (consec + 1)
    else claimAreaGo base base_std base_peak_time rest consec

/-- The claimed area of claim C1: the samples of `treatment_data`
followed by `anterior_wash_data`, zipped with the claimed deltas. -/
def claimArea (td : TreatmentData) (base base_std base_peak_time : ℚ) : ℚ :=
  let l := td.treatment_data ++ td.anterior_wash_data
  claimAreaGo base base_std base_peak_time (l.zip (claimDts l)) 0

/-- Samples annotated with deltas relative to an optional previous time;
bridges the loop state of `areaLoop` with the zipped form of
`claimArea`. -/
def withDt : Option ℚ → List TimeValuePair → List (TimeValuePair × ℚ)
  | _, [] => []
  | none, v :: rest => (v, 6) :: withDt (some v.time) rest
  | some p, v :: rest => (v, v.time - p) :: withDt (some v.time) rest

/-- The peak candidate pool exactly as claim C2 words it: all treatment
samples plus the anterior-wash samples whose time does not exceed the
last treatment time plus the search window. -/
def claimPeakPool (td : TreatmentData) (post_std_time_to_search : ℚ) : List TimeValuePair :=
  match td.treatment_data.getLast? with
  | none => td.treatment_data
  | some lastT =>
    td.treatment_data ++
      td.anterior_wash_data.filter
        (fun v => decide (v.time ≤ lastT.time + post_std_time_to_search))

/-- The last `k` elements of a list (claim C4 wording: the last
`base_elements` samples). -/
def lastSamples (l : List TimeValuePair) (k : ℕ) : List TimeValuePair :=
  l.drop (l.length - k)

/-- Base statistics as claim C4 words them over the last
`min base_elements (length)` prior-wash samples: mean and sample
standard deviation, fatal for fewer than two samples taken. -/
noncomputable def claimBase (pw : List TimeValuePair) (b : ℤ) : Option (ℚ × ℝ) :=
  let s := (lastSamples pw (min b.toNat pw.length)).map (fun x => x.value)
  if s.length < 2 then none else some (s.sum / s.length, Real.sqrt (sampleVarQ s))

/-- Concrete prior-wash series used by the base-statistics claims. -/
def pwThree : List TimeValuePair := [⟨0, 1⟩, ⟨6, 2⟩, ⟨12, 3⟩]

/-- Concrete treatment record whose prior wash is `pwThree`. -/
def tdBaseThree : TreatmentData :=
  { treatment_name := "CCK", prior_wash_data := some pwThree,
    treatment_data := [], anterior_wash_data := [] }

/-- Concrete treatment record with one anterior-wash sample past the
peak-search window. -/
def tdPeakWindow : TreatmentData :=
  { treatment_name := "CCK", prior_wash_data := none,
    treatment_data := [⟨0, 1⟩], anterior_wash_data := [⟨400, 5⟩] }

/-- Concrete treatment record with two treatment samples. -/
def tdPeakPair : TreatmentData :=
  { treatment_name := "CCK", prior_wash_data := none,
    treatment_data := [⟨0, 1⟩, ⟨6, 2⟩], anterior_wash_data := [] }

/-- Concrete treatment record whose second sample steps back in time. -/
def tdAreaBackstep : TreatmentData :=
  { treatment_name := "CCK", prior_wash_data := none,
    treatment_data := [⟨6, 10⟩, ⟨0, 20⟩], anterior_wash_data := [] }

/-- Concrete treatment record with non-decreasing times and values above
the base. -/
def tdAreaMono : TreatmentData :=
  { treatment_name := "CCK", prior_wash_data := none,
    treatment_data := [⟨0, 5⟩, ⟨6, 7⟩], anterior_wash_data := [⟨12, 4⟩] }

/-- A concrete one-region sheet: every ratio cell holds `0.132` (which
converts to concentration 0), the time cell of row `r` holds `r`. -/
def sheetBath : Sheet :=
  { maxRow := 8
    ratioCell := fun _ => .num 0.132
    timeCell := fun r => .num r }

/-- Labels of the concrete bath-treatment-bath run on `sheetBath`. -/
def labelsBath : List LabelIndexPair := [⟨"STD", 2⟩, ⟨"CCK", 4⟩, ⟨"STD", 6⟩]

/-- The treatment segment built by the concrete run on `sheetBath`. -/
def tdBathCCK : TreatmentData :=
  { treatment_name := "CCK", prior_wash_data := some [⟨2, 0⟩, ⟨3, 0⟩],
    treatment_data := [⟨4, 0⟩, ⟨5, 0⟩], anterior_wash_data := [⟨7, 0⟩, ⟨8, 0⟩] }

/-- The segment list built by the concrete run on `sheetBath`. -/
def resBath : List Segment :=
  [.std [⟨2, 0⟩, ⟨3, 0⟩], .treat tdBathCCK, .std [⟨6, 0⟩, ⟨7, 0⟩, ⟨8, 0⟩]]

/-- A small sheet used with a first label placed after the data start. -/
def sheetGap : Sheet :=
  { maxRow := 5
    ratioCell := fun _ => .num 0.132
    timeCell := fun r => .num r }

/-- A sheet with a text string in the row-3 ratio cell. -/
def sheetBadRatioCell : Sheet :=
  { maxRow := 5
    ratioCell := fun r => if r = 3 then .text "abc" else .num 0.132
    timeCell := fun r => .num r }

/-- A sheet with a text string in the row-3 time cell. -/
def sheetBadTimeCell : Sheet :=
  { maxRow := 5
    ratioCell := fun _ => .num 0.132
    timeCell := fun r => if r = 3 then .text "mm" else .num r }

/-- Evaluation of the concrete bath-treatment-bath run: the treatment
collects rows 4-5, its anterior wash rows 7-8 (row 6 is skipped), and
the closing bath segment rows 6-8. -/
lemma grdr_bath_eval : get_raw_data_region sheetBath labelsBath = .ok resBath := by
  norm_num [get_raw_data_region, segmentLoop, buildSeg, append_values, appendRows,
    convertCell, entryLabel, entryIndex, lastSTD, is_valid_treatment, START_DATA_ROW,
    sheetBath, labelsBath, resBath, tdBathCCK]
  rfl

/-- C5: for every numeric ratio `r` the conversion returns
`146 * (25813.79 / 1674.68) * ((r - 0.132) / (6.274 - r))`, in
particular `0` at `r = 0.132`, and an absent input yields an absent
result. -/
theorem ratio_conversion_formula :
    (∀ r : ℚ, ratio_to_calcium_concentration (some r) =
      some (146 * (25813.79 / 1674.68) * ((r - 0.132) / (6.274 - r)))) ∧
    ratio_to_calcium_concentration (some 0.132) = some 0 ∧
    ratio_to_calcium_concentration none = none := by
  refine ⟨fun r => rfl, ?_, rfl⟩
  norm_num [ratio_to_calcium_concentration]

/-- C3: with peak mode 2 and a candidate pool of two samples,
`calculate_peak` does not return the mean of the top two values paired
with the later of their times: it raises `TypeError`, because the source
computes `max(data_to_search[0:2])` over bare `TimeValuePair` objects,
which define no ordering. -/
theorem calculate_peak_average_mode_type_error :
    calculate_peak tdPeakPair 2 300 =
      .error "TypeError: comparison not supported between instances of TimeValuePair" := rfl

/-- C7: with the first treatment label at row 3 (after the data start at
row 2), `get_raw_data` does not produce a leading standard-bath segment:
it inserts the raw tuple `("STD", 2)` into the label list and then
crashes with `AttributeError` when the loop reads `.label` on it. -/
theorem std_tuple_insert_attribute_error :
    get_raw_data_region sheetGap [⟨"CCK", 3⟩] =
      .error "AttributeError: tuple object has no attribute label" := rfl

/-- C9: a text string in a ratio cell does not yield a `(0, 0)`
placeholder: `append_values` aborts with `TypeError` raised inside
`ratio_to_calcium_concentration` (`str` minus `float`).  A text string
in a time cell, by contrast, does take the placeholder path, preserving
row alignment. -/
theorem text_ratio_cell_type_error :
    append_values sheetBadRatioCell 2 5 =
      .error "TypeError: unsupported operand types for str and float" ∧
    append_values sheetBadTimeCell 2 5 = .ok [⟨2, 0⟩, ⟨0, 0⟩, ⟨4, 0⟩] := by
  constructor
  · rfl
  · norm_num [append_values, appendRows, sheetBadTimeCell, convertCell]

/-- C2 counterexample: the candidate pool of `calculate_peak` is not
bounded by the search window: with the single anterior-wash sample at
time 400 (past the window ending at 300), mode 1 returns that sample's
value 5 and time 400, although the claimed pool contains only the value
1 at time 0. -/
theorem peak_pool_window_counterexample :
    calculate_peak tdPeakWindow 1 300 = .ok (.num 5, .num 400) ∧
    claimPeakPool tdPeakWindow 300 = [⟨0, 1⟩] := by
  constructor
  · norm_num [calculate_peak, searchPool, scanCount, tdPeakWindow, valueGE]
  · norm_num [claimPeakPool, tdPeakWindow, List.filter]

/-- C10 counterexample: with every sample value at or above the base but
a time step going backwards, `calculate_area` returns `-60 < 0`. -/
theorem area_negative_counterexample :
    (tdAreaBackstep.treatment_data ++ tdAreaBackstep.anterior_wash_data).all
        (fun v => decide ((0 : ℚ) ≤ v.value)) = true ∧
    calculate_area tdAreaBackstep 0 0 100 = -60 := by
  constructor
  · decide
  · norm_num [calculate_area, areaLoop, tdAreaBackstep]

/-- C4 counterexample: with `base_elements = 0`, the slice `[-0:]` is
the whole prior-wash series, so `calculate_base` returns the statistics
of all three samples instead of being undefined over the last zero
samples as the claim requires. -/
theorem calculate_base_zero_counterexample :
    calculate_base tdBaseThree 0 = some (2, 1) ∧
    pySliceLast pwThree 0 = pwThree ∧
    claimBase pwThree 0 = none := by
  refine ⟨?_, by norm_num [pySliceLast], by norm_num [claimBase, lastSamples, pwThree]⟩
  norm_num [calculate_base, tdBaseThree, pwThree, pySliceLast, meanQ, stdevQ, sampleVarQ,
    Real.sqrt_one]

/-- C6 counterexample: in the concrete run the treatment's row range
ends at row 6 (the next label's row) and the label two ahead is absent,
so the claim puts rows 6-8 into the anterior wash; the code collects
rows 7-8 only, skipping the row at the next label's index. -/
theorem anterior_wash_window_counterexample :
    get_raw_data_region sheetBath labelsBath = .ok resBath ∧
    append_values sheetBath 6 9 = .ok [⟨6, 0⟩, ⟨7, 0⟩, ⟨8, 0⟩] ∧
    tdBathCCK.anterior_wash_data ≠ [⟨6, 0⟩, ⟨7, 0⟩, ⟨8, 0⟩] := by
  refine ⟨grdr_bath_eval, ?_, by decide⟩
  norm_num [append_values, appendRows, sheetBath, convertCell]

/-- The tail of the zipped delta list matches the delta-annotated list
built relative to the previous sample's time. -/
lemma zip_zipWith_eq_withDt (x : TimeValuePair) (xs : List TimeValuePair) :
    xs.zip (List.zipWith (fun p c => c.time - p.time) (x :: xs) xs) =
      withDt (some x.time) xs := by
  induction xs generalizing x with
  | nil => rfl
  | cons v rest ih =>
    simp only [List.zipWith_cons_cons, List.zip_cons_cons, withDt]
    rw [ih v]

/-- The zipped delta list of claim C1 coincides with the delta-annotated
list built with no previous time. -/
lemma zip_claimDts_eq_withDt (l : List TimeValuePair) :
    l.zip (claimDts l) = withDt none l := by
  cases l with
  | nil => rfl
  | cons x xs =>
    simp only [claimDts, List.zip_cons_cons, withDt]
    rw [zip_zipWith_eq_withDt x xs]

/-- The accumulator loop of `calculate_area` equals the accumulator-free
recursion of the claim over the delta-annotated list. -/
lemma areaLoop_eq_claimAreaGo (base base_std base_peak_time : ℚ) :
    ∀ (l : List TimeValuePair) (prev : Option ℚ) (consec : ℕ) (auc : ℚ),
      areaLoop base base_std base_peak_time l prev consec auc =
        auc + claimAreaGo base base_std base_peak_time (withDt prev l) consec := by
  intro l
  induction l with
  | nil => intro prev consec auc; cases prev <;> simp [areaLoop, withDt, claimAreaGo]
  | cons v rest ih =>
    intro prev consec auc
    cases prev with
    | none =>
      simp only [areaLoop, withDt, claimAreaGo]
      split_ifs with h1 h2 h3
      · rw [ih]; ring
      · ring
      · rw [ih]
      · rw [ih]
    | some p =>
      simp only [areaLoop, withDt, claimAreaGo]
      split_ifs with h1 h2 h3
      · rw [ih]; ring
      · ring
      · rw [ih]
      · rw [ih]

/-- C1: `calculate_area` iterates `treatment_data ++ anterior_wash_data`
with dt 6 for the first sample and current-minus-previous time after,
adds `(value - base) * dt` above `base + base_std`, and otherwise, past
the peak time, bumps a never-reset counter that stops the iteration at
15 — exactly the claimed recursion `claimArea`. -/
theorem calculate_area_matches_claim (td : TreatmentData)
    (base base_std base_peak_time : ℚ) :
    calculate_area td base base_std base_peak_time =
      claimArea td base base_std base_peak_time := by
  simp only [calculate_area, claimArea]
  rw [zip_claimDts_eq_withDt, areaLoop_eq_claimAreaGo]
  ring

/-- The area loop keeps a non-negative accumulator when every remaining
value is at least the base and times never decrease. -/
lemma areaLoop_nonneg (base base_std base_peak_time : ℚ) :
    ∀ (l : List TimeValuePair) (prev : Option ℚ) (consec : ℕ) (auc : ℚ),
      (∀ v ∈ l, base ≤ v.value) →
      l.Chain' (fun x y => x.time ≤ y.time) →
      (∀ p, prev = some p → ∀ v ∈ l.head?, p ≤ v.time) →
      0 ≤ auc →
      0 ≤ areaLoop base base_std base_peak_time l prev consec auc := by
  intro l
  induction l with
  | nil => intro prev consec auc _ _ _ ha; cases prev <;> simpa [areaLoop] using ha
  | cons v rest ih =>
    intro prev consec auc hval hchain hprev ha
    have hchain2 := (List.chain'_cons'.mp hchain).2
    have hhead := (List.chain'_cons'.mp hchain).1
    have hvalrest : ∀ w ∈ rest, base ≤ w.value := fun w hw =>
      hval w (List.mem_cons_of_mem _ hw)
    have hprevrest : ∀ p, some v.time = some p → ∀ w ∈ rest.head?, p ≤ w.time := by
      intro p hp w hw
      cases hp
      exact hhead w hw
    have hdt : ∀ p, prev = some p → 0 ≤ v.time - p := by
      intro p hp
      have := hprev p hp v (by simp)
      linarith
    cases prev with
    | none =>
      simp only [areaLoop]
      split_ifs with h1 h2 h3
      · refine ih (some v.time) consec _ hvalrest hchain2 hprevrest ?_
        have hv : base ≤ v.value := hval v (List.mem_cons_self _ _)
        have : (0 : ℚ) ≤ (v.value - base) * 6 := by nlinarith
        linarith
      · exact ha
      · exact ih (some v.time) (consec + 1) _ hvalrest hchain2 hprevrest ha
      · exact ih (some v.time) consec _ hvalrest hchain2 hprevrest ha
    | some p =>
      simp only [areaLoop]
      split_ifs with h1 h2 h3
      · refine ih (some v.time) consec _ hvalrest hchain2 hprevrest ?_
        have hv : base ≤ v.value := hval v (List.mem_cons_self _ _)
        have hd := hdt p rfl
        have : (0 : ℚ) ≤ (v.value - base) * (v.time - p) := by nlinarith
        linarith
      · exact ha
      · exact ih (some v.time) (consec + 1) _ hvalrest hchain2 hprevrest ha
      · exact ih (some v.time) consec _ hvalrest hchain2 hprevrest ha

/-- C10 amended: if every sample of `treatment_data ++
anterior_wash_data` has value at least `base` and the sample times are
non-decreasing along that concatenation, the accumulated area is
non-negative. -/
theorem area_nonneg_amended (td : TreatmentData) (base base_std base_peak_time : ℚ)
    (hval : ∀ v ∈ td.treatment_data ++ td.anterior_wash_data, base ≤ v.value)
    (htime : (td.treatment_data ++ td.anterior_wash_data).Chain'
      (fun x y => x.time ≤ y.time)) :
    0 ≤ calculate_area td base base_std base_peak_time := by
  simp only [calculate_area]
  exact areaLoop_nonneg base base_std base_peak_time _ none 0 0 hval htime
    (fun p hp => nomatch hp) le_rfl

/-- Witness for the amended C10 at a concrete record. -/
theorem area_nonneg_amended_witness :
    (∀ v ∈ tdAreaMono.treatment_data ++ tdAreaMono.anterior_wash_data, (1 : ℚ) ≤ v.value) ∧
    (tdAreaMono.treatment_data ++ tdAreaMono.anterior_wash_data).Chain'
      (fun x y => x.time ≤ y.time) ∧
    0 ≤ calculate_area tdAreaMono 1 0 0 :=
  ⟨by decide, by norm_num [tdAreaMono, List.chain'_cons],
   area_nonneg_amended tdAreaMono 1 0 0 (by decide)
     (by norm_num [tdAreaMono, List.chain'_cons])⟩

/-- C2 amended: with a non-empty `treatment_data` and peak mode 1,
`calculate_peak` returns the value and time of a maximum-value candidate
of `searchPool` — the pool the code actually builds, which also includes
the first anterior-wash sample past the search window. -/
theorem calculate_peak_highest_amended (td : TreatmentData) (post : ℚ)
    (h : td.treatment_data ≠ []) :
    ∃ p : TimeValuePair, p ∈ searchPool td post ∧
      (∀ q ∈ searchPool td post, q.value ≤ p.value) ∧
      calculate_peak td 1 post = .ok (.num p.value, .num p.time) := by
  obtain ⟨lastT, hlast⟩ : ∃ a, td.treatment_data.getLast? = some a := by
    cases hl : td.treatment_data.getLast? with
    | none => exact absurd (List.getLast?_eq_none_iff.mp hl) h
    | some a => exact ⟨a, rfl⟩
  have hpoolne : searchPool td post ≠ [] := by
    simp only [searchPool, hlast]
    intro hc
    exact h (List.append_eq_nil.mp hc).1
  cases hsort : List.insertionSort valueGE (searchPool td post) with
  | nil =>
    exfalso
    have hperm := List.perm_insertionSort valueGE (searchPool td post)
    rw [hsort] at hperm
    exact hpoolne (hperm.symm.eq_nil)
  | cons top rest =>
    have hperm := List.perm_insertionSort valueGE (searchPool td post)
    rw [hsort] at hperm
    have hsorted := List.sorted_insertionSort valueGE (searchPool td post)
    rw [hsort] at hsorted
    refine ⟨top, hperm.mem_iff.mp (List.mem_cons_self _ _), ?_, ?_⟩
    · intro q hq
      rcases List.mem_cons.mp (hperm.mem_iff.mpr hq) with rfl | hq2
      · exact le_rfl
      · exact (List.sorted_cons.mp hsorted).1 q hq2
    · simp only [calculate_peak, hlast, hsort]
      norm_num

/-- Witness for the amended C2 at a concrete record. -/
theorem calculate_peak_highest_amended_witness :
    tdPeakWindow.treatment_data ≠ [] ∧
    (∃ p : TimeValuePair, p ∈ searchPool tdPeakWindow 300 ∧
      (∀ q ∈ searchPool tdPeakWindow 300, q.value ≤ p.value) ∧
      calculate_peak tdPeakWindow 1 300 = .ok (.num p.value, .num p.time)) :=
  ⟨by decide, calculate_peak_highest_amended tdPeakWindow 300 (by decide)⟩

/-- C4 amended: for a present prior wash and a requested count of at
least 1, `calculate_base` returns exactly the claimed statistics over
the last `base_elements` prior-wash samples (all of them when fewer
exist), undefined when fewer than two samples are taken. -/
theorem calculate_base_amended (td : TreatmentData) (pw : List TimeValuePair) (b : ℤ)
    (hpw : td.prior_wash_data = some pw) (hb : 1 ≤ b) :
    calculate_base td b = claimBase pw b := by
  have hslice : pySliceLast pw b = lastSamples pw (min b.toNat pw.length) := by
    simp only [pySliceLast, lastSamples, if_pos hb]
    congr 1
    omega
  simp only [calculate_base, hpw, hslice, claimBase]
  generalize (lastSamples pw (min b.toNat pw.length)).map (fun x => x.value) = s
  rcases s with _ | ⟨a, _ | ⟨c, t⟩⟩
  · simp [meanQ, stdevQ]
  · simp [meanQ, stdevQ]
  · have hC : ¬ (t.length + 1 + 1 < 2) := by omega
    simp [meanQ, stdevQ, hC]

/-- Witness for the amended C4 at a concrete record. -/
theorem calculate_base_amended_witness :
    tdBaseThree.prior_wash_data = some pwThree ∧ (1 : ℤ) ≤ 2 ∧
    calculate_base tdBaseThree 2 = claimBase pwThree 2 :=
  ⟨rfl, by norm_num, calculate_base_amended tdBaseThree pwThree 2 rfl (by norm_num)⟩

/-- A successful segment loop extends its accumulator. -/
lemma segmentLoop_prefix (sheet : Sheet) :
    ∀ (entries : List LabelEntry) (j : ℕ) (acc res : List Segment),
      segmentLoop sheet entries j acc = .ok res → acc <+: res := by
  intro entries
  induction entries with
  | nil =>
    intro j acc res h
    simp only [segmentLoop, Except.ok.injEq] at h
    exact h ▸ List.prefix_refl acc
  | cons e rest ih =>
    intro j acc res h
    cases hb : buildSeg sheet e rest j acc with
    | error err => simp [segmentLoop, hb] at h
    | ok seg =>
      simp only [segmentLoop, hb] at h
      exact (List.prefix_append acc [seg]).trans (ih (j + 1) (acc ++ [seg]) res h)

/-- Each successful segment-loop step builds the segment found at the
corresponding output position from the matching label entry. -/
lemma segmentLoop_get (sheet : Sheet) :
    ∀ (entries : List LabelEntry) (j : ℕ) (acc res : List Segment),
      segmentLoop sheet entries j acc = .ok res →
      ∀ (k : ℕ) (e : LabelEntry), entries[k]? = some e →
        ∃ (seg : Segment) (acc2 : List Segment), acc2.length = acc.length + k ∧
          buildSeg sheet e (entries.drop (k + 1)) (j + k) acc2 = .ok seg ∧
          res[acc.length + k]? = some seg := by
  intro entries
  induction entries with
  | nil => intro j acc res h k e hk; simp at hk
  | cons e0 rest ih =>
    intro j acc res h k e hk
    cases hb : buildSeg sheet e0 rest j acc with
    | error err => simp [segmentLoop, hb] at h
    | ok seg0 =>
      simp only [segmentLoop, hb] at h
      cases k with
      | zero =>
        have he : e0 = e := by simpa using hk
        subst he
        refine ⟨seg0, acc, (Nat.add_zero _).symm, by simpa using hb, ?_⟩
        obtain ⟨t2, rfl⟩ := segmentLoop_prefix sheet rest (j + 1) (acc ++ [seg0]) res h
        rw [Nat.add_zero, List.append_assoc, List.getElem?_append_right le_rfl]
        simp
      | succ k2 =>
        have hk2 : rest[k2]? = some e := by simpa using hk
        obtain ⟨seg, acc2, hlen, hbuild, hres⟩ := ih (j + 1) (acc ++ [seg0]) res h k2 e hk2
        refine ⟨seg, acc2, ?_, ?_, ?_⟩
        · simp only [List.length_append, List.length_cons, List.length_nil] at hlen
          omega
        · have harith : j + 1 + k2 = j + (k2 + 1) := by omega
          rw [← harith]
          simpa using hbuild
        · have harith : acc.length + (k2 + 1) = (acc ++ [seg0]).length + k2 := by
            simp only [List.length_append, List.length_cons, List.length_nil]
            omega
          rw [harith]
          exact hres

/-- The first label of a region (loop index 0) can only produce a
standard-bath segment: the treatment branch hits the `assert j > 0`. -/
lemma buildSeg_zero_std (sheet : Sheet) (e : LabelEntry) (rest : List LabelEntry)
    (acc : List Segment) (seg : Segment)
    (h : buildSeg sheet e rest 0 acc = .ok seg) : ∃ d, seg = .std d := by
  rcases e with p | ⟨s, i⟩
  · simp only [buildSeg, entryLabel, entryIndex] at h
    split at h
    · simp at h
    · split at h
      · split at h
        · simp at h
        · simp at h
      · split at h
        · simp at h
        · rename_i d heq
          exact ⟨d, by injection h with h2; exact h2.symm⟩
  · simp only [buildSeg, entryLabel, entryIndex] at h
    split at h
    · simp at h
    · simp at h

/-- C8: a treatment with no earlier standard-bath segment is fatal: a
region whose first label is a valid treatment name makes
`get_raw_data_region` error out (through the `assert j > 0`, or through
the broken tuple insertion when the label sits after the data start),
and in every successful run each treatment segment is preceded by a
standard-bath segment in the region segment list. -/
theorem treatment_requires_prior_bath :
    (∀ (sheet : Sheet) (l0 : LabelIndexPair) (rest : List LabelIndexPair),
        is_valid_treatment l0.label = true →
        ∃ err, get_raw_data_region sheet (l0 :: rest) = .error err) ∧
    (∀ (sheet : Sheet) (labels : List LabelIndexPair) (res : List Segment),
        get_raw_data_region sheet labels = .ok res →
        ∀ (i : ℕ) (td : TreatmentData), res[i]? = some (.treat td) →
          ∃ k d, k < i ∧ res[k]? = some (.std d)) := by
  constructor
  · intro sheet l0 rest hvalid
    by_cases hidx : START_DATA_ROW < l0.index
    · refine ⟨"AttributeError: tuple object has no attribute label", ?_⟩
      simp only [get_raw_data_region, if_pos hidx]
      simp [segmentLoop, buildSeg, entryLabel, entryIndex]
    · simp only [get_raw_data_region, if_neg hidx]
      rcases rest with _ | ⟨r1, rest2⟩
      · cases happ : append_values sheet l0.index (sheet.maxRow + 1) with
        | error e =>
          exact ⟨e, by simp [segmentLoop, buildSeg, entryLabel, entryIndex, hvalid, happ]⟩
        | ok tr =>
          refine ⟨"AssertionError: STD must be first treatment", ?_⟩
          simp [segmentLoop, buildSeg, entryLabel, entryIndex, hvalid, happ]
      · cases happ : append_values sheet l0.index r1.index with
        | error e =>
          exact ⟨e, by simp [segmentLoop, buildSeg, entryLabel, entryIndex, hvalid, happ]⟩
        | ok tr =>
          refine ⟨"AssertionError: STD must be first treatment", ?_⟩
          simp [segmentLoop, buildSeg, entryLabel, entryIndex, hvalid, happ]
  · intro sheet labels res hok i td hi
    rcases labels with _ | ⟨l0, rest⟩
    · simp [get_raw_data_region] at hok
    · have hentries : ∃ (e0 : LabelEntry) (t : List LabelEntry),
          segmentLoop sheet (e0 :: t) 0 [] = .ok res := by
        by_cases hidx : START_DATA_ROW < l0.index
        · exact ⟨.tup "STD" START_DATA_ROW, (l0 :: rest).map LabelEntry.pair,
            by simpa [get_raw_data_region, if_pos hidx] using hok⟩
        · exact ⟨.pair l0, rest.map LabelEntry.pair,
            by simpa [get_raw_data_region, if_neg hidx] using hok⟩
      obtain ⟨e0, t, hseg⟩ := hentries
      obtain ⟨seg0, acc2, hlen0, hbuild0, hres0⟩ :=
        segmentLoop_get sheet (e0 :: t) 0 [] res hseg 0 e0 (by simp)
      have hacc2 : acc2 = [] := List.length_eq_zero.mp (by simpa using hlen0)
      subst hacc2
      obtain ⟨d, rfl⟩ := buildSeg_zero_std sheet e0 ((e0 :: t).drop 1) [] seg0 hbuild0
      have hres0b : res[0]? = some (.std d) := by simpa using hres0
      have hi0 : i ≠ 0 := by
        intro h0
        subst h0
        rw [hres0b] at hi
        simp at hi
      exact ⟨0, d, Nat.pos_of_ne_zero hi0, hres0b⟩

/-- Witness for C8 at concrete inputs: a treatment-first label list
errors, and the successful concrete run has a bath segment before its
treatment segment. -/
theorem treatment_requires_prior_bath_witness :
    (∃ err, get_raw_data_region sheetBath [⟨"CCK", 2⟩] = .error err) ∧
    (∃ k d, k < 1 ∧ resBath[k]? = some (.std d)) :=
  ⟨treatment_requires_prior_bath.1 sheetBath ⟨"CCK", 2⟩ [] (by decide),
   treatment_requires_prior_bath.2 sheetBath labelsBath resBath grdr_bath_eval 1 tdBathCCK rfl⟩

/-- A list whose entry `n` is known splits there when dropped. -/
lemma drop_eq_cons_of_getElem {α : Type} (l : List α) (n : ℕ) (a : α)
    (h : l[n]? = some a) : l.drop n = a :: l.drop (n + 1) := by
  induction l generalizing n with
  | nil => simp at h
  | cons x xs ih =>
    cases n with
    | zero =>
      simp only [List.getElem?_cons_zero, Option.some.injEq] at h
      simp [h]
    | succ n2 => simpa using ih n2 (by simpa using h)

/-- C6 amended: in a successful region run whose first label is at the
data start, a treatment label followed by a bath label gets as anterior
wash exactly the rows from one past its row-range end (the row at the
next label's index is skipped) up to the row before the label two ahead
(or the grid's last row); a treatment followed by another valid
treatment label gets an empty anterior wash. -/
theorem anterior_wash_window_amended
    (sheet : Sheet) (l0 : LabelIndexPair) (rest : List LabelIndexPair)
    (h0 : l0.index ≤ START_DATA_ROW) (res : List Segment)
    (hok : get_raw_data_region sheet (l0 :: rest) = .ok res)
    (m : ℕ) (lm lnext : LabelIndexPair)
    (hm : (l0 :: rest)[m]? = some lm)
    (hm1 : (l0 :: rest)[m + 1]? = some lnext)
    (hv : is_valid_treatment lm.label = true) :
    ∃ td : TreatmentData, res[m]? = some (.treat td) ∧
      (is_valid_treatment lnext.label = true → td.anterior_wash_data = []) ∧
      (is_valid_treatment lnext.label = false →
        append_values sheet (lnext.index + 1)
          (match (l0 :: rest)[m + 2]? with
           | some l2 => l2.index
           | none => sheet.maxRow + 1) = .ok td.anterior_wash_data) := by
  have hidx : ¬ (START_DATA_ROW < l0.index) := not_lt.mpr h0
  have hseg : segmentLoop sheet ((l0 :: rest).map LabelEntry.pair) 0 [] = .ok res := by
    simpa [get_raw_data_region, if_neg hidx] using hok
  have hme : ((l0 :: rest).map LabelEntry.pair)[m]? = some (.pair lm) := by
    rw [List.getElem?_map, hm]; rfl
  obtain ⟨seg, acc2, hlen, hbuild, hres⟩ :=
    segmentLoop_get sheet _ 0 [] res hseg m (.pair lm) hme
  have hres2 : res[m]? = some seg := by simpa using hres
  have hm1e : ((l0 :: rest).map LabelEntry.pair)[m + 1]? = some (.pair lnext) := by
    rw [List.getElem?_map, hm1]; rfl
  have hdrop : ((l0 :: rest).map LabelEntry.pair).drop (m + 1) =
      .pair lnext :: ((l0 :: rest).map LabelEntry.pair).drop (m + 2) :=
    drop_eq_cons_of_getElem _ _ _ hm1e
  rw [hdrop] at hbuild
  have hT : (((l0 :: rest).map LabelEntry.pair).drop (m + 2)).head? =
      ((l0 :: rest)[m + 2]?).map LabelEntry.pair := by
    rw [List.head?_drop, List.getElem?_map]
  simp only [buildSeg, entryLabel, entryIndex, List.head?_cons, List.tail_cons, hv,
    if_true, hT] at hbuild
  split at hbuild
  · simp at hbuild
  · rename_i tr heqtr
    split at hbuild
    · simp at hbuild
    · split at hbuild
      · rename_i hnv
        refine ⟨{ treatment_name := lm.label, prior_wash_data := lastSTD acc2,
                  treatment_data := tr, anterior_wash_data := [] }, ?_, ?_, ?_⟩
        · rw [hres2]
          injection hbuild with h2
          rw [h2]
        · intro _; rfl
        · intro hfalse
          rw [hnv] at hfalse
          cases hfalse
      · rename_i hnv
        cases h2 : (l0 :: rest)[m + 2]? with
        | some l2 =>
          rw [h2] at hbuild
          simp only [Option.map_some', entryIndex] at hbuild
          split at hbuild
          · simp at hbuild
          · rename_i ant happ2
            refine ⟨{ treatment_name := lm.label, prior_wash_data := lastSTD acc2,
                      treatment_data := tr, anterior_wash_data := ant }, ?_, ?_, ?_⟩
            · rw [hres2]
              injection hbuild with h3
              rw [h3]
            · intro htrue
              exact absurd htrue hnv
            · intro _
              exact happ2
        | none =>
          rw [h2] at hbuild
          simp only [Option.map_none', entryIndex] at hbuild
          split at hbuild
          · simp at hbuild
          · rename_i ant happ2
            refine ⟨{ treatment_name := lm.label, prior_wash_data := lastSTD acc2,
                      treatment_data := tr, anterior_wash_data := ant }, ?_, ?_, ?_⟩
            · rw [hres2]
              injection hbuild with h3
              rw [h3]
            · intro htrue
              exact absurd htrue hnv
            · intro _
              exact happ2

/-- Witness for the amended C6 at the concrete bath-treatment-bath run. -/
theorem anterior_wash_window_amended_witness :
    ∃ td : TreatmentData, resBath[1]? = some (.treat td) ∧
      (is_valid_treatment "STD" = true → td.anterior_wash_data = []) ∧
      (is_valid_treatment "STD" = false →
        append_values sheetBath 7
          (match labelsBath[3]? with
           | some l2 => l2.index
           | none => sheetBath.maxRow + 1) = .ok td.anterior_wash_data) := by
  exact anterior_wash_window_amended sheetBath ⟨"STD", 2⟩ [⟨"CCK", 4⟩, ⟨"STD", 6⟩]
    (by decide) resBath grdr_bath_eval 1 ⟨"CCK", 4⟩ ⟨"STD", 6⟩ (by decide) (by decide) (by decide)

/-- Witness for C1 at a concrete record. -/
theorem calculate_area_matches_claim_witness :
    calculate_area tdAreaBackstep 0 0 100 = claimArea tdAreaBackstep 0 0 100 :=
  calculate_area_matches_claim tdAreaBackstep 0 0 100

/-- Witness for C5 at a concrete ratio. -/
theorem ratio_conversion_formula_witness :
    ratio_to_calcium_concentration (some 2) =
      some (146 * (25813.79 / 1674.68) * ((2 - 0.132) / (6.274 - 2))) ∧
    ratio_to_calcium_concentration none = none :=
  ⟨ratio_conversion_formula.1 2, ratio_conversion_formula.2.2⟩
